import Mathlib

/-
  Verification development for the multipass workflow-catalog engine and the
  stop/mount CLI argument handling.

  The workflow-catalog core (DefaultVMWorkflowProvider) is embedded from the
  specification of the component, cross-checked against the behaviour pinned
  by tests/test_workflow_provider.cpp; the stop/mount models are direct
  embeddings of src/client/cli/cmd/stop.cpp and src/client/cli/cmd/mount.cpp.
-/

/-- Equality of Except values is decidable when it is on both components;
used to evaluate the embedded operations on concrete inputs. -/
instance {ε α : Type} [DecidableEq ε] [DecidableEq α] : DecidableEq (Except ε α)
  | .ok a, .ok b =>
    if h : a = b then .isTrue (by rw [h]) else .isFalse (by intro hc; cases hc; exact h rfl)
  | .ok _, .error _ => .isFalse (by intro hc; cases hc)
  | .error _, .ok _ => .isFalse (by intro hc; cases hc)
  | .error e1, .error e2 =>
    if h : e1 = e2 then .isTrue (by rw [h]) else .isFalse (by intro hc; cases hc; exact h rfl)

namespace Multipass

/-- Modelled from the spec: a raw value of one key of an archive entry's
structured document, as the parser sees it.  The implementation file
(default_vm_workflow_provider.cpp) is not part of the sources at hand; the
three cases correspond to a key that is absent, a key whose value cannot be
converted to the expected type, and a successfully converted value. -/
inductive RawVal (α : Type) where
  | absent : RawVal α
  | bad : RawVal α
  | val : α → RawVal α
deriving DecidableEq, Repr

/-- Modelled from the spec: a human-readable size quantity as given in a
workflow (`str`, e.g. "2G") together with the number of bytes it denotes. -/
structure SizeSpec where
  str : String
  bytes : Nat
deriving DecidableEq, Repr

/-- The symbolic image query returned to the caller. -/
structure ImageQuery where
  release : String
  remote_name : String
deriving DecidableEq, Repr

/-- Modelled from the spec: one archive entry as delivered by the archive
reader, before schema validation.  `name` is the entry name (the workflow id);
`parses` records whether the raw bytes form a structured document at all. -/
structure RawEntry where
  name : String
  parses : Bool
  description : RawVal String
  version : RawVal String
  runs_on : RawVal (List String)
  image : RawVal ImageQuery
  min_cores : RawVal Nat
  min_mem : RawVal SizeSpec
  min_disk : RawVal SizeSpec
  cloud_init : RawVal String
  timeout : RawVal Nat
deriving DecidableEq, Repr

/-- The distinguishable reasons of a schema violation, per the validation
rules of the spec (document unparseable, required key missing, key value not
convertible, invalid workflow name, unsupported image scheme, invalid
numeric/size value). -/
inductive Reason where
  | unparseable : Reason
  | required : Reason
  | cannotConvert : Reason
  | invalidName : Reason
  | unsupportedScheme : Reason
  | invalidValue : Reason
deriving DecidableEq, Repr

/-- A field-named schema violation raised by the workflow parser. -/
structure SchemaViolation where
  field : String
  reason : Reason
deriving DecidableEq, Repr

/-- Modelled from the spec: a validated workflow definition, immutable once
parsed. -/
structure WorkflowDefinition where
  id : String
  aliases : List String
  version : String
  description : String
  runs_on : List String
  image : Option ImageQuery
  min_cores : Option Nat
  min_mem : Option SizeSpec
  min_disk : Option SizeSpec
  cloud_init : Option String
  timeout : Nat
deriving DecidableEq, Repr

/-- Modelled from the spec: host-name syntax for workflow ids — non-empty,
starting with a lowercase letter, all characters lowercase alphanumeric or a
hyphen (the test data rejects the digit-led name 42-invalid-hostname-workflow). -/
def validHostname (s : String) : Bool :=
  match s.toList with
  | [] => false
  | c :: cs => c.isLower && (c :: cs).all fun x => x.isLower || x.isDigit || x = '-'

/-- Check of a required string-valued key: absent and unconvertible values
give distinct field-named violations. -/
def reqString (k : String) : RawVal String → Except SchemaViolation String
  | .absent => .error ⟨k, .required⟩
  | .bad => .error ⟨k, .cannotConvert⟩
  | .val s => .ok s

/-- Check of an optional key: absent is fine, an unconvertible value gives the
field-named violation with the given reason. -/
def optField {α : Type} (k : String) (r : Reason) : RawVal α → Except SchemaViolation (Option α)
  | .absent => .ok none
  | .bad => .error ⟨k, r⟩
  | .val a => .ok (some a)

/-- Modelled from the spec: the workflow parser.  Validation order and error
kinds follow the spec's rule list: structural parse, description, version,
runs-on, host-name syntax of the id, image scheme, minimum cores (positive),
minimum memory, minimum disk, cloud-init, timeout; the first violation aborts
the entry's parse. -/
def parseEntry (e : RawEntry) : Except SchemaViolation WorkflowDefinition := do
  if e.parses = false then throw ⟨"document", .unparseable⟩
  let desc ← reqString "description" e.description
  let ver ← reqString "version" e.version
  let runs ← optField "runs-on" .cannotConvert e.runs_on
  if validHostname e.name = false then throw ⟨"name", .invalidName⟩
  let img ← optField "image" .unsupportedScheme e.image
  let mc ← optField "minimum-cores" .invalidValue e.min_cores
  if mc = some 0 then throw ⟨"minimum-cores", .invalidValue⟩
  let mm ← optField "minimum-memory" .invalidValue e.min_mem
  let md ← optField "minimum-disk" .invalidValue e.min_disk
  let ci ← optField "cloud-init" .cannotConvert e.cloud_init
  let tmo ← optField "timeout" .invalidValue e.timeout
  pure { id := e.name, aliases := [e.name], version := ver, description := desc,
         runs_on := runs.getD [], image := img, min_cores := mc,
         min_mem := mm, min_disk := md, cloud_init := ci, timeout := tmo.getD 0 }

/-- A workflow is compatible when its runs-on set is empty or contains the
catalog's compatibility tag. -/
def compatible (tag : String) (d : WorkflowDefinition) : Bool :=
  d.runs_on.isEmpty || d.runs_on.contains tag

/-- Modelled from the spec: the caller-owned provisioning request
(VirtualMachineDescription), mutated in place by the applier.  A zero value of
a resource field means the caller has not expressed a preference; memory and
disk are byte counts. -/
structure VMRequest where
  num_cores : Nat
  mem_size : Nat
  disk_space : Nat
  cloud_init : Option String
deriving DecidableEq, Repr

/-- A workflow-minimum violation, naming the resource and the required
minimum formatted as given in the workflow. -/
structure MinViolation where
  resource : String
  required : String
deriving DecidableEq, Repr

/-- Modelled from the spec: the cores step of the resource-merge.  A sentinel
(zero) value is raised to the workflow's minimum; a non-sentinel value below
the minimum fails naming the resource and its minimum; otherwise the value is
kept. -/
def mergeCores (d : WorkflowDefinition) (r : VMRequest) : Except MinViolation VMRequest :=
  match d.min_cores with
  | none => .ok r
  | some m =>
    if r.num_cores = 0 then .ok { r with num_cores := m }
    else if r.num_cores < m then .error ⟨"Number of CPUs", toString m⟩
    else .ok r

/-- Modelled from the spec: the memory step of the resource-merge; the
required minimum is reported as given in the workflow (e.g. "2G"). -/
def mergeMem (d : WorkflowDefinition) (r : VMRequest) : Except MinViolation VMRequest :=
  match d.min_mem with
  | none => .ok r
  | some m =>
    if r.mem_size = 0 then .ok { r with mem_size := m.bytes }
    else if r.mem_size < m.bytes then .error ⟨"Memory size", m.str⟩
    else .ok r

/-- Modelled from the spec: the disk step of the resource-merge. -/
def mergeDisk (d : WorkflowDefinition) (r : VMRequest) : Except MinViolation VMRequest :=
  match d.min_disk with
  | none => .ok r
  | some m =>
    if r.disk_space = 0 then .ok { r with disk_space := m.bytes }
    else if r.disk_space < m.bytes then .error ⟨"Disk space", m.str⟩
    else .ok r

/-- The image query resolved from a workflow: its image spec, defaulting to
release "default" when the workflow defines none. -/
def imageFor (d : WorkflowDefinition) : ImageQuery :=
  d.image.getD { release := "default", remote_name := "" }

/-- Modelled from the spec: the provisioning applier.  The three resource
steps run in order (cores, memory, disk) mutating the request in place, so the
second component of the result is the state of the caller's request when the
call returns — also when a step fails, since the preceding steps have already
written to it.  Cloud-init is assigned only when the request carries none. -/
def apply_workflow (d : WorkflowDefinition) (r : VMRequest) :
    Except MinViolation ImageQuery × VMRequest :=
  match mergeCores d r with
  | .error v => (.error v, r)
  | .ok r1 =>
    match mergeMem d r1 with
    | .error v => (.error v, r1)
    | .ok r2 =>
      match mergeDisk d r2 with
      | .error v => (.error v, r2)
      | .ok r3 =>
        if r3.cloud_init.isNone then (.ok (imageFor d), { r3 with cloud_init := d.cloud_init })
        else (.ok (imageFor d), r3)

/-- Modelled from the spec: the state of a workflow catalog — TTL, the host's
compatibility tag, the time of the last successful refresh (none before the
first one), and the raw entries of the last successfully extracted archive. -/
structure CatalogState where
  ttl : Nat
  tag : String
  last_refresh : Option Nat
  entries : List RawEntry
deriving DecidableEq, Repr

/-- Modelled from the spec: staleness check of the cache; a TTL of zero means
always stale, and a catalog never refreshed is stale. -/
def needsRefresh (s : CatalogState) (now : Nat) : Bool :=
  match s.last_refresh with
  | none => true
  | some t => if now - t < s.ttl then false else true

/-- The outcome the fetch/extract pipeline would produce if attempted:
a successful list of entries, an expected fetch failure, an expected corrupt
archive, or an unexpected failure. -/
inductive FetchOutcome where
  | fetched : List RawEntry → FetchOutcome
  | fetchFailure : String → FetchOutcome
  | archiveCorrupt : String → FetchOutcome
  | other : String → FetchOutcome
deriving DecidableEq, Repr

/-- The log lines the catalog emits: recoverable fetch errors, recoverable
archive errors, and per-entry validation errors during a bulk listing. -/
inductive LogMsg where
  | fetchError : String → LogMsg
  | archiveError : String → LogMsg
  | invalidWorkflow : SchemaViolation → LogMsg
deriving DecidableEq, Repr

/-- Modelled from the spec: ensure_fresh.  Within the TTL nothing happens (no
fetch is attempted, the Bool of the result is false).  Otherwise a fetch is
attempted: on success the entries are swapped in wholesale and last_refresh
advances to now; a FetchFailure or ArchiveCorrupt is logged, state untouched,
last_refresh not advanced; any other failure propagates unmodified. -/
def ensure_fresh (s : CatalogState) (now : Nat) (f : FetchOutcome) :
    Except String (CatalogState × Bool × List LogMsg) :=
  if needsRefresh s now then
    match f with
    | .fetched es => .ok ({ s with entries := es, last_refresh := some now }, true, [])
    | .fetchFailure m => .ok (s, true, [.fetchError m])
    | .archiveCorrupt m => .ok (s, true, [.archiveError m])
    | .other m => .error m
  else
    .ok (s, false, [])

/-- Modelled from the spec: construction of a catalog performs a mandatory
initial refresh, with the same recoverable/fatal split as any refresh. -/
def construct (ttl : Nat) (tag : String) (now : Nat) (f : FetchOutcome) :
    Except String (CatalogState × List LogMsg) :=
  match ensure_fresh { ttl := ttl, tag := tag, last_refresh := none, entries := [] } now f with
  | .ok (s, _, logs) => .ok (s, logs)
  | .error m => .error m

/-- The id-to-definition mapping of a catalog state: the definitions of the
entries that validate, filtered by the compatibility tag. -/
def CatalogState.mapping (s : CatalogState) : List WorkflowDefinition :=
  (s.entries.filterMap fun e => (parseEntry e).toOption).filter fun d => compatible s.tag d

/-- The summary of a workflow returned by the listing operations. -/
structure Summary where
  id : String
  aliases : List String
  release_title : String
  version : String
deriving DecidableEq, Repr

def summarize (d : WorkflowDefinition) : Summary :=
  { id := d.id, aliases := d.aliases, release_title := d.description, version := d.version }

/-- Modelled from the spec: the bulk enumeration pass over the raw entries,
in insertion order.  A valid compatible entry contributes its summary; a
validation failure is logged and the entry skipped; a valid but incompatible
entry is skipped. -/
def collectWorkflows (tag : String) : List RawEntry → List Summary × List LogMsg
  | [] => ([], [])
  | e :: rest =>
    let acc := collectWorkflows tag rest
    match parseEntry e with
    | .ok d => if compatible tag d then (summarize d :: acc.1, acc.2) else acc
    | .error v => (acc.1, .invalidWorkflow v :: acc.2)

/-- The errors a targeted catalog lookup can raise. -/
inductive CatalogError where
  | unknownWorkflow : String → CatalogError
  | incompatibleWorkflow : String → CatalogError
  | invalidWorkflow : SchemaViolation → CatalogError
  | minimumViolation : MinViolation → CatalogError
deriving DecidableEq, Repr

/-- Lookup of the raw entry of an id. -/
def findEntry (s : CatalogState) (id_or_alias : String) : Option RawEntry :=
  s.entries.find? fun e => e.name = id_or_alias

/-- Modelled from the spec: all_workflows — refresh, then enumerate; the
refresh logs and the per-entry validation logs are both emitted.  The Bool of
the result records whether a fetch was attempted. -/
def all_workflows_op (s : CatalogState) (now : Nat) (f : FetchOutcome) :
    Except String (CatalogState × Bool × List Summary × List LogMsg) :=
  match ensure_fresh s now f with
  | .error m => .error m
  | .ok (s1, b, logs) =>
    let c := collectWorkflows s1.tag s1.entries
    .ok (s1, b, c.1, logs ++ c.2)

/-- Modelled from the spec: info_for on the current mapping — unknown ids
fail, a malformed entry propagates its own schema violation, a valid but
incompatible entry fails as incompatible. -/
def info_for (s : CatalogState) (id_or_alias : String) : Except CatalogError Summary :=
  match findEntry s id_or_alias with
  | none => .error (.unknownWorkflow id_or_alias)
  | some e =>
    match parseEntry e with
    | .error v => .error (.invalidWorkflow v)
    | .ok d =>
      if compatible s.tag d then .ok (summarize d)
      else .error (.incompatibleWorkflow id_or_alias)

/-- Modelled from the spec: fetch_workflow_for — resolve the definition like
info_for, then run the applier against the caller's request.  The second
component is the caller's request when the call returns (the applier mutates
it in place). -/
def fetch_workflow_for (s : CatalogState) (id_or_alias : String) (r : VMRequest) :
    Except CatalogError ImageQuery × VMRequest :=
  match findEntry s id_or_alias with
  | none => (.error (.unknownWorkflow id_or_alias), r)
  | some e =>
    match parseEntry e with
    | .error v => (.error (.invalidWorkflow v), r)
    | .ok d =>
      if compatible s.tag d then
        match apply_workflow d r with
        | (.ok q, r2) => (.ok q, r2)
        | (.error v, r2) => (.error (.minimumViolation v), r2)
      else (.error (.incompatibleWorkflow id_or_alias), r)

/-- Modelled from the spec, amended by the tests (invalidTimeoutThrows):
workflow_timeout reads only the timeout key of the entry — 0 for an unknown
workflow or an absent timeout, the value when present and well-formed, and
the timeout schema violation when the value is present but malformed. -/
def workflow_timeout (s : CatalogState) (id_or_alias : String) : Except SchemaViolation Nat :=
  match findEntry s id_or_alias with
  | none => .ok 0
  | some e =>
    match e.timeout with
    | .absent => .ok 0
    | .bad => .error ⟨"timeout", .invalidValue⟩
    | .val t => .ok t

/-- The catalog states reachable by construction followed by any sequence of
refresh attempts. -/
inductive Reachable : CatalogState → Prop where
  | init : ∀ ttl tag now f s logs, construct ttl tag now f = .ok (s, logs) → Reachable s
  | step : ∀ s now f s' b logs, Reachable s →
      ensure_fresh s now f = .ok (s', b, logs) → Reachable s'

end Multipass

namespace StopCmd

/-- mp::utils::has_only_digits — std::all_of over isdigit; true on the empty
string (src/client/cli/cmd/stop.cpp line 114 calls it on the time value). -/
def has_only_digits (s : String) : Bool :=
  s.toList.all Char.isDigit

/-- The numeric value denoted by a digit string (most significant first). -/
def digitsVal (s : String) : Nat :=
  s.toList.foldl (fun acc c => acc * 10 + (c.toNat - 48)) 0

def intMax : Nat := 2147483647

/-- QString::toInt restricted to the strings stop.cpp feeds it (they passed
has_only_digits): the denoted value when the string is non-empty and fits a
32-bit signed int, and 0 otherwise (toInt reports failure by returning 0). -/
def qstringToInt (s : String) : Int :=
  if s.toList ≠ [] && has_only_digits s && decide (digitsVal s ≤ intMax) then
    (digitsVal s : Int)
  else 0

/-- The plus-stripping step of Stop::parse_args (stop.cpp lines 109-112): one
leading plus sign, if present, is removed. -/
def stripPlus (time : String) : String :=
  match time.toList with
  | '+' :: rest => ⟨rest⟩
  | _ => time

/-- The --time handling of Stop::parse_args (src/client/cli/cmd/stop.cpp lines
107-120): one leading plus sign is removed, the rest must be all digits or the
command fails with a command-line error after printing the message; on
success the request's time_minutes is set to QString::toInt of the digits. -/
def parse_time (time : String) : Except String Int :=
  let t := stripPlus time
  if has_only_digits t then .ok (qstringToInt t) else .error "Time must be in digit form"

end StopCmd

namespace MountCmd

/-- One uid/gid mapping entry of the mount request. -/
structure IdMap where
  host_id : Nat
  instance_id : Int
deriving DecidableEq, Repr

/-- mp::default_id, the instance id meaning the default user of the instance.
Its definition lives outside the sources at hand; the claims do not depend on
its value. -/
def default_id : Int := -1

def uintMax : Nat := 4294967295

/-- convert_id_for (src/client/cli/cmd/mount.cpp lines 40-49): QString::toUInt
of the id string, failing when it is not a number fitting an unsigned int. -/
def convert_id_for (s : String) : Except String Nat :=
  if s.toList ≠ [] && s.toList.all Char.isDigit && decide (StopCmd.digitsVal s ≤ uintMax) then
    .ok (StopCmd.digitsVal s)
  else .error (s ++ " is an invalid id")

/-- One map option value (src/client/cli/cmd/mount.cpp lines 186-210): it must
match the regex of digits, colon, digits exactly, then both halves are
converted; a failed conversion surfaces its own message. -/
def parse_id_map (label : String) (m : String) : Except String IdMap :=
  match m.splitOn ":" with
  | [a, b] =>
    if a.toList ≠ [] && b.toList ≠ [] &&
        a.toList.all Char.isDigit && b.toList.all Char.isDigit then
      match convert_id_for a with
      | .error e => .error e
      | .ok h =>
        match convert_id_for b with
        | .error e => .error e
        | .ok i => .ok { host_id := h, instance_id := (i : Int) }
    else .error (label ++ m)
  | _ => .error (label ++ m)

/-- The loop over the values of one map option. -/
def parse_id_maps (label : String) : List String → Except String (List IdMap)
  | [] => .ok []
  | m :: rest =>
    match parse_id_map label m with
    | .error e => .error e
    | .ok p =>
      match parse_id_maps label rest with
      | .error e => .error e
      | .ok ps => .ok (p :: ps)

/-- The uid/gid mapping phase of Mount::parse_args (src/client/cli/cmd/
mount.cpp lines 178-256).  An option given as none was not set on the command
line.  When neither option is set, one default uid mapping (the caller's uid
to default_id) and one default gid mapping (the caller's gid to default_id)
are added; otherwise exactly the given mappings are. -/
def parse_mount_maps (uid_maps gid_maps : Option (List String)) (host_uid host_gid : Nat) :
    Except String (List IdMap × List IdMap) :=
  match uid_maps with
  | some ms =>
    (match parse_id_maps "Invalid UID map given: " ms with
     | .error e => .error e
     | .ok us =>
       match gid_maps with
       | some gs0 =>
         (match parse_id_maps "Invalid GID map given: " gs0 with
          | .error e => .error e
          | .ok gs => .ok (us, gs))
       | none => .ok (us, []))
  | none =>
    match gid_maps with
    | some gs0 =>
      (match parse_id_maps "Invalid GID map given: " gs0 with
       | .error e => .error e
       | .ok gs => .ok ([], gs))
    | none =>
      .ok ([{ host_id := host_uid, instance_id := default_id }],
           [{ host_id := host_gid, instance_id := default_id }])

end MountCmd

namespace Multipass

/-- The cores minimum is violated: a non-sentinel request value strictly below
the workflow's defined minimum. -/
def coresViolated (d : WorkflowDefinition) (r : VMRequest) : Bool :=
  match d.min_cores with
  | none => false
  | some m => decide (r.num_cores ≠ 0) && decide (r.num_cores < m)

/-- The memory minimum is violated. -/
def memViolated (d : WorkflowDefinition) (r : VMRequest) : Bool :=
  match d.min_mem with
  | none => false
  | some m => decide (r.mem_size ≠ 0) && decide (r.mem_size < m.bytes)

/-- The disk minimum is violated. -/
def diskViolated (d : WorkflowDefinition) (r : VMRequest) : Bool :=
  match d.min_disk with
  | none => false
  | some m => decide (r.disk_space ≠ 0) && decide (r.disk_space < m.bytes)

/-- The test-workflow1 entry of the test archive: minimum cores 2, minimum
memory 2G, minimum disk 25G, a cloud-init payload and a 600 second timeout. -/
def testWorkflow1Entry : RawEntry :=
  { name := "test-workflow1", parses := true,
    description := .val "The first test workflow", version := .val "0.1",
    runs_on := .absent, image := .absent,
    min_cores := .val 2, min_mem := .val ⟨"2G", 2147483648⟩,
    min_disk := .val ⟨"25G", 26843545600⟩,
    cloud_init := .val "runcmd echo Have fun", timeout := .val 600 }

/-- The definition test-workflow1 parses to. -/
def testWorkflow1Def : WorkflowDefinition :=
  { id := "test-workflow1", aliases := ["test-workflow1"], version := "0.1",
    description := "The first test workflow", runs_on := [],
    image := none, min_cores := some 2, min_mem := some ⟨"2G", 2147483648⟩,
    min_disk := some ⟨"25G", 26843545600⟩,
    cloud_init := some "runcmd echo Have fun", timeout := 600 }

/-- The malformed missing-description-workflow entry of the test archive. -/
def missingDescEntry : RawEntry :=
  { name := "missing-description-workflow", parses := true,
    description := .absent, version := .val "0.1", runs_on := .absent,
    image := .absent, min_cores := .absent, min_mem := .absent,
    min_disk := .absent, cloud_init := .absent, timeout := .absent }

/-- The arch-only entry of the test archive, restricted to the arch
architecture. -/
def archOnlyEntry : RawEntry :=
  { name := "arch-only", parses := true,
    description := .val "An arch-only workflow", version := .val "0.1",
    runs_on := .val ["arch"], image := .absent, min_cores := .absent,
    min_mem := .absent, min_disk := .absent, cloud_init := .absent,
    timeout := .absent }

/-- The definition arch-only parses to. -/
def archOnlyDef : WorkflowDefinition :=
  { id := "arch-only", aliases := ["arch-only"], version := "0.1",
    description := "An arch-only workflow", runs_on := ["arch"],
    image := none, min_cores := none, min_mem := none, min_disk := none,
    cloud_init := none, timeout := 0 }

/-- The invalid-timeout-workflow entry of the test archive: well-formed except
that the timeout value cannot be converted. -/
def invalidTimeoutEntry : RawEntry :=
  { name := "invalid-timeout-workflow", parses := true,
    description := .val "A workflow with an invalid timeout",
    version := .val "0.1", runs_on := .absent,
    image := .absent, min_cores := .absent, min_mem := .absent,
    min_disk := .absent, cloud_init := .absent, timeout := .bad }

/-- A fresh catalog over test-workflow1 under the amd64 tag. -/
def sW1 : CatalogState :=
  { ttl := 1, tag := "amd64", last_refresh := some 0, entries := [testWorkflow1Entry] }

/-- A fresh catalog over the invalid-timeout entry. -/
def sTimeout : CatalogState :=
  { ttl := 1, tag := "amd64", last_refresh := some 0, entries := [invalidTimeoutEntry] }

/-- A fresh catalog over the arch-only entry under a tag it does not carry. -/
def sIncomp : CatalogState :=
  { ttl := 1, tag := "amd64", last_refresh := some 0, entries := [archOnlyEntry] }

/-- A fresh catalog over the arch-only entry under the matching arch tag. -/
def sComp : CatalogState :=
  { ttl := 1, tag := "arch", last_refresh := some 0, entries := [archOnlyEntry] }

theorem mergeCores_ok_fields {d : WorkflowDefinition} {r r1 : VMRequest}
    (h : mergeCores d r = .ok r1) :
    r1.mem_size = r.mem_size ∧ r1.disk_space = r.disk_space ∧ r1.cloud_init = r.cloud_init ∧
    (r.num_cores = 0 → r1.num_cores = d.min_cores.getD 0) ∧
    (r.num_cores ≠ 0 → r1.num_cores = r.num_cores) := by
  cases hm : d.min_cores with
  | none =>
    simp [mergeCores, hm] at h
    subst h
    simp [hm]
  | some m =>
    simp [mergeCores, hm] at h
    split_ifs at h with h1 h2
    · rw [Except.ok.injEq] at h
      subst h
      simp [h1, hm]
    · rw [Except.ok.injEq] at h
      subst h
      simp [h1]

theorem mergeMem_ok_fields {d : WorkflowDefinition} {r r1 : VMRequest}
    (h : mergeMem d r = .ok r1) :
    r1.num_cores = r.num_cores ∧ r1.disk_space = r.disk_space ∧ r1.cloud_init = r.cloud_init ∧
    (r.mem_size = 0 → r1.mem_size = (d.min_mem.map SizeSpec.bytes).getD 0) ∧
    (r.mem_size ≠ 0 → r1.mem_size = r.mem_size) := by
  cases hm : d.min_mem with
  | none =>
    simp [mergeMem, hm] at h
    subst h
    simp [hm]
  | some m =>
    simp [mergeMem, hm] at h
    split_ifs at h with h1 h2
    · rw [Except.ok.injEq] at h
      subst h
      simp [h1, hm]
    · rw [Except.ok.injEq] at h
      subst h
      simp [h1]

theorem mergeDisk_ok_fields {d : WorkflowDefinition} {r r1 : VMRequest}
    (h : mergeDisk d r = .ok r1) :
    r1.num_cores = r.num_cores ∧ r1.mem_size = r.mem_size ∧ r1.cloud_init = r.cloud_init ∧
    (r.disk_space = 0 → r1.disk_space = (d.min_disk.map SizeSpec.bytes).getD 0) ∧
    (r.disk_space ≠ 0 → r1.disk_space = r.disk_space) := by
  cases hm : d.min_disk with
  | none =>
    simp [mergeDisk, hm] at h
    subst h
    simp [hm]
  | some m =>
    simp [mergeDisk, hm] at h
    split_ifs at h with h1 h2
    · rw [Except.ok.injEq] at h
      subst h
      simp [h1, hm]
    · rw [Except.ok.injEq] at h
      subst h
      simp [h1]

theorem mergeCores_error_iff {d : WorkflowDefinition} {r : VMRequest} {v : MinViolation} :
    mergeCores d r = .error v ↔
      ∃ m, d.min_cores = some m ∧ r.num_cores ≠ 0 ∧ r.num_cores < m ∧
        v = ⟨"Number of CPUs", toString m⟩ := by
  cases hm : d.min_cores with
  | none => simp [mergeCores, hm]
  | some m =>
    simp only [mergeCores, hm]
    split_ifs with h1 h2
    · simp [h1]
    · simp [h1, h2, eq_comm]
    · simp [h1, h2]

theorem mergeMem_error_iff {d : WorkflowDefinition} {r : VMRequest} {v : MinViolation} :
    mergeMem d r = .error v ↔
      ∃ m, d.min_mem = some m ∧ r.mem_size ≠ 0 ∧ r.mem_size < m.bytes ∧
        v = ⟨"Memory size", m.str⟩ := by
  cases hm : d.min_mem with
  | none => simp [mergeMem, hm]
  | some m =>
    simp only [mergeMem, hm]
    split_ifs with h1 h2
    · simp [h1]
    · simp [h1, h2, eq_comm]
    · simp [h1, h2]

theorem mergeDisk_error_iff {d : WorkflowDefinition} {r : VMRequest} {v : MinViolation} :
    mergeDisk d r = .error v ↔
      ∃ m, d.min_disk = some m ∧ r.disk_space ≠ 0 ∧ r.disk_space < m.bytes ∧
        v = ⟨"Disk space", m.str⟩ := by
  cases hm : d.min_disk with
  | none => simp [mergeDisk, hm]
  | some m =>
    simp only [mergeDisk, hm]
    split_ifs with h1 h2
    · simp [h1]
    · simp [h1, h2, eq_comm]
    · simp [h1, h2]

theorem coresViolated_iff {d : WorkflowDefinition} {r : VMRequest} :
    coresViolated d r = true ↔
      ∃ m, d.min_cores = some m ∧ r.num_cores ≠ 0 ∧ r.num_cores < m := by
  cases hm : d.min_cores <;> simp [coresViolated, hm]

theorem memViolated_iff {d : WorkflowDefinition} {r : VMRequest} :
    memViolated d r = true ↔
      ∃ m, d.min_mem = some m ∧ r.mem_size ≠ 0 ∧ r.mem_size < m.bytes := by
  cases hm : d.min_mem <;> simp [memViolated, hm]

theorem diskViolated_iff {d : WorkflowDefinition} {r : VMRequest} :
    diskViolated d r = true ↔
      ∃ m, d.min_disk = some m ∧ r.disk_space ≠ 0 ∧ r.disk_space < m.bytes := by
  cases hm : d.min_disk <;> simp [diskViolated, hm]

theorem mergeCores_ok_of_not_violated {d : WorkflowDefinition} {r : VMRequest}
    (h : coresViolated d r = false) : ∃ r1, mergeCores d r = .ok r1 := by
  cases hm : d.min_cores with
  | none => exact ⟨r, by simp [mergeCores, hm]⟩
  | some m =>
    by_cases h1 : r.num_cores = 0
    · exact ⟨{ r with num_cores := m }, by simp [mergeCores, hm, h1]⟩
    · have h2 : ¬ r.num_cores < m := by
        intro hlt
        have hv : coresViolated d r = true := by simp [coresViolated, hm, h1, hlt]
        rw [hv] at h
        exact absurd h (by simp)
      exact ⟨r, by simp [mergeCores, hm, h1, h2]⟩

theorem mergeMem_ok_of_not_violated {d : WorkflowDefinition} {r : VMRequest}
    (h : memViolated d r = false) : ∃ r1, mergeMem d r = .ok r1 := by
  cases hm : d.min_mem with
  | none => exact ⟨r, by simp [mergeMem, hm]⟩
  | some m =>
    by_cases h1 : r.mem_size = 0
    · exact ⟨{ r with mem_size := m.bytes }, by simp [mergeMem, hm, h1]⟩
    · have h2 : ¬ r.mem_size < m.bytes := by
        intro hlt
        have hv : memViolated d r = true := by simp [memViolated, hm, h1, hlt]
        rw [hv] at h
        exact absurd h (by simp)
      exact ⟨r, by simp [mergeMem, hm, h1, h2]⟩

theorem mergeDisk_ok_of_not_violated {d : WorkflowDefinition} {r : VMRequest}
    (h : diskViolated d r = false) : ∃ r1, mergeDisk d r = .ok r1 := by
  cases hm : d.min_disk with
  | none => exact ⟨r, by simp [mergeDisk, hm]⟩
  | some m =>
    by_cases h1 : r.disk_space = 0
    · exact ⟨{ r with disk_space := m.bytes }, by simp [mergeDisk, hm, h1]⟩
    · have h2 : ¬ r.disk_space < m.bytes := by
        intro hlt
        have hv : diskViolated d r = true := by simp [diskViolated, hm, h1, hlt]
        rw [hv] at h
        exact absurd h (by simp)
      exact ⟨r, by simp [mergeDisk, hm, h1, h2]⟩

theorem apply_workflow_ok_elim {d : WorkflowDefinition} {r : VMRequest}
    {q : ImageQuery} {r4 : VMRequest} (h : apply_workflow d r = (.ok q, r4)) :
    ∃ r1 r2 r3, mergeCores d r = .ok r1 ∧ mergeMem d r1 = .ok r2 ∧ mergeDisk d r2 = .ok r3 ∧
      q = imageFor d ∧
      ((r3.cloud_init = none ∧ r4 = { r3 with cloud_init := d.cloud_init }) ∨
       (r3.cloud_init ≠ none ∧ r4 = r3)) := by
  unfold apply_workflow at h
  cases hc : mergeCores d r with
  | error v => simp only [hc] at h; simp at h
  | ok r1 =>
    simp only [hc] at h
    cases hmm : mergeMem d r1 with
    | error v => simp only [hmm] at h; simp at h
    | ok r2 =>
      simp only [hmm] at h
      cases hd : mergeDisk d r2 with
      | error v => simp only [hd] at h; simp at h
      | ok r3 =>
        simp only [hd] at h
        refine ⟨r1, r2, r3, rfl, hmm, hd, ?_⟩
        by_cases hci : r3.cloud_init = none
        · simp [hci] at h
          exact ⟨h.1.symm, Or.inl ⟨hci, h.2.symm⟩⟩
        · simp [Option.isNone_iff_eq_none, hci] at h
          exact ⟨h.1.symm, Or.inr ⟨hci, h.2.symm⟩⟩

theorem apply_workflow_error_elim {d : WorkflowDefinition} {r : VMRequest}
    {v : MinViolation} {r2 : VMRequest} (h : apply_workflow d r = (.error v, r2)) :
    (mergeCores d r = .error v ∧ r2 = r) ∨
    (∃ r1, mergeCores d r = .ok r1 ∧ mergeMem d r1 = .error v ∧ r2 = r1) ∨
    (∃ r1 r1', mergeCores d r = .ok r1 ∧ mergeMem d r1 = .ok r1' ∧
      mergeDisk d r1' = .error v ∧ r2 = r1') := by
  unfold apply_workflow at h
  cases hc : mergeCores d r with
  | error v0 =>
    simp only [hc] at h
    simp at h
    obtain ⟨hv, hr⟩ := h
    subst hv
    exact Or.inl ⟨rfl, hr.symm⟩
  | ok r1 =>
    simp only [hc] at h
    cases hmm : mergeMem d r1 with
    | error v0 =>
      simp only [hmm] at h
      simp at h
      obtain ⟨hv, hr⟩ := h
      subst hv
      exact Or.inr (Or.inl ⟨r1, rfl, hmm, hr.symm⟩)
    | ok r1' =>
      simp only [hmm] at h
      cases hd : mergeDisk d r1' with
      | error v0 =>
        simp only [hd] at h
        simp at h
        obtain ⟨hv, hr⟩ := h
        subst hv
        exact Or.inr (Or.inr ⟨r1, r1', rfl, hmm, hd, hr.symm⟩)
      | ok r3 =>
        simp only [hd] at h
        by_cases hci : r3.cloud_init = none <;> simp [hci, Option.isNone_iff_eq_none] at h

theorem apply_workflow_ok_fields {d : WorkflowDefinition} {r : VMRequest}
    {q : ImageQuery} {r4 : VMRequest} (h : apply_workflow d r = (.ok q, r4)) :
    (r.num_cores = 0 → r4.num_cores = d.min_cores.getD 0) ∧
    (r.num_cores ≠ 0 → r4.num_cores = r.num_cores) ∧
    (r.mem_size = 0 → r4.mem_size = (d.min_mem.map SizeSpec.bytes).getD 0) ∧
    (r.mem_size ≠ 0 → r4.mem_size = r.mem_size) ∧
    (r.disk_space = 0 → r4.disk_space = (d.min_disk.map SizeSpec.bytes).getD 0) ∧
    (r.disk_space ≠ 0 → r4.disk_space = r.disk_space) ∧
    q = imageFor d := by
  obtain ⟨r1, r2, r3, hc, hm, hd, hq, hcl⟩ := apply_workflow_ok_elim h
  obtain ⟨hc1, hc2, hc3, hc4, hc5⟩ := mergeCores_ok_fields hc
  obtain ⟨hm1, hm2, hm3, hm4, hm5⟩ := mergeMem_ok_fields hm
  obtain ⟨hd1, hd2, hd3, hd4, hd5⟩ := mergeDisk_ok_fields hd
  have h4c : r4.num_cores = r3.num_cores := by
    rcases hcl with ⟨_, h4⟩ | ⟨_, h4⟩ <;> simp [h4]
  have h4m : r4.mem_size = r3.mem_size := by
    rcases hcl with ⟨_, h4⟩ | ⟨_, h4⟩ <;> simp [h4]
  have h4d : r4.disk_space = r3.disk_space := by
    rcases hcl with ⟨_, h4⟩ | ⟨_, h4⟩ <;> simp [h4]
  refine ⟨?_, ?_, ?_, ?_, ?_, ?_, hq⟩
  · intro hz
    rw [h4c, hd1, hm1]
    exact hc4 hz
  · intro hz
    rw [h4c, hd1, hm1]
    exact hc5 hz
  · intro hz
    rw [h4m, hd2]
    exact hm4 (by rw [hc1]; exact hz)
  · intro hz
    rw [h4m, hd2, hm5 (by rw [hc1]; exact hz), hc1]
  · intro hz
    rw [h4d]
    exact hd4 (by rw [hm2, hc2]; exact hz)
  · intro hz
    rw [h4d, hd5 (by rw [hm2, hc2]; exact hz), hm2, hc2]

theorem memViolated_congr {d : WorkflowDefinition} {r r1 : VMRequest}
    (h : r1.mem_size = r.mem_size) : memViolated d r1 = memViolated d r := by
  cases hm : d.min_mem <;> simp [memViolated, hm, h]

theorem diskViolated_congr {d : WorkflowDefinition} {r r1 : VMRequest}
    (h : r1.disk_space = r.disk_space) : diskViolated d r1 = diskViolated d r := by
  cases hm : d.min_disk <;> simp [diskViolated, hm, h]

theorem apply_workflow_min_cases (d : WorkflowDefinition) (r : VMRequest) :
    (coresViolated d r = true →
      ∀ m, d.min_cores = some m →
        apply_workflow d r = (.error ⟨"Number of CPUs", toString m⟩, r)) ∧
    (coresViolated d r = false → memViolated d r = true →
      ∀ m, d.min_mem = some m →
        ∃ r1, mergeCores d r = .ok r1 ∧
          apply_workflow d r = (.error ⟨"Memory size", m.str⟩, r1)) ∧
    (coresViolated d r = false → memViolated d r = false → diskViolated d r = true →
      ∀ m, d.min_disk = some m →
        ∃ r1 r2, mergeCores d r = .ok r1 ∧ mergeMem d r1 = .ok r2 ∧
          apply_workflow d r = (.error ⟨"Disk space", m.str⟩, r2)) ∧
    (coresViolated d r = false → memViolated d r = false → diskViolated d r = false →
      ∃ q r4, apply_workflow d r = (.ok q, r4)) := by
  refine ⟨?_, ?_, ?_, ?_⟩
  · intro hv m hm
    obtain ⟨m', hm', hne, hlt⟩ := coresViolated_iff.mp hv
    rw [hm] at hm'
    injection hm' with hm'
    subst hm'
    have hcerr : mergeCores d r = .error ⟨"Number of CPUs", toString m⟩ := by
      simp [mergeCores, hm, hne, hlt]
    unfold apply_workflow
    simp only [hcerr]
  · intro hcv hv m hm
    obtain ⟨r1, hc⟩ := mergeCores_ok_of_not_violated hcv
    obtain ⟨hc1, hc2, hc3, hc4, hc5⟩ := mergeCores_ok_fields hc
    obtain ⟨m', hm', hne, hlt⟩ := memViolated_iff.mp hv
    rw [hm] at hm'
    injection hm' with hm'
    subst hm'
    have hmerr : mergeMem d r1 = .error ⟨"Memory size", m.str⟩ := by
      simp [mergeMem, hm, hc1, hne, hlt]
    refine ⟨r1, hc, ?_⟩
    unfold apply_workflow
    simp only [hc, hmerr]
  · intro hcv hmv hv m hm
    obtain ⟨r1, hc⟩ := mergeCores_ok_of_not_violated hcv
    obtain ⟨hc1, hc2, hc3, hc4, hc5⟩ := mergeCores_ok_fields hc
    have hmv1 : memViolated d r1 = false := by rw [memViolated_congr hc1]; exact hmv
    obtain ⟨r2, hmm⟩ := mergeMem_ok_of_not_violated hmv1
    obtain ⟨hm1, hm2, hm3, hm4, hm5⟩ := mergeMem_ok_fields hmm
    obtain ⟨m', hm', hne, hlt⟩ := diskViolated_iff.mp hv
    rw [hm] at hm'
    injection hm' with hm'
    subst hm'
    have hderr : mergeDisk d r2 = .error ⟨"Disk space", m.str⟩ := by
      simp [mergeDisk, hm, hm2, hc2, hne, hlt]
    refine ⟨r1, r2, hc, hmm, ?_⟩
    unfold apply_workflow
    simp only [hc, hmm, hderr]
  · intro hcv hmv hdv
    obtain ⟨r1, hc⟩ := mergeCores_ok_of_not_violated hcv
    obtain ⟨hc1, hc2, hc3, hc4, hc5⟩ := mergeCores_ok_fields hc
    have hmv1 : memViolated d r1 = false := by rw [memViolated_congr hc1]; exact hmv
    obtain ⟨r2, hmm⟩ := mergeMem_ok_of_not_violated hmv1
    obtain ⟨hm1, hm2, hm3, hm4, hm5⟩ := mergeMem_ok_fields hmm
    have hdd : r2.disk_space = r.disk_space := by rw [hm2, hc2]
    have hdv2 : diskViolated d r2 = false := by
      rw [diskViolated_congr hdd]
      exact hdv
    obtain ⟨r3, hd⟩ := mergeDisk_ok_of_not_violated hdv2
    unfold apply_workflow
    simp only [hc, hmm, hd]
    by_cases hci : r3.cloud_init.isNone
    · exact ⟨imageFor d, { r3 with cloud_init := d.cloud_init }, by simp [hci]⟩
    · exact ⟨imageFor d, r3, by simp [hci]⟩

theorem collectWorkflows_fst (tag : String) (es : List RawEntry) :
    (collectWorkflows tag es).1 = es.filterMap fun e =>
      match parseEntry e with
      | .ok d => if compatible tag d then some (summarize d) else none
      | .error _ => none := by
  induction es with
  | nil => rfl
  | cons e rest ih =>
    simp only [collectWorkflows, List.filterMap_cons]
    cases hp : parseEntry e with
    | ok d => by_cases hcd : compatible tag d <;> simp [hp, hcd, ih]
    | error v => simp [hp, ih]

theorem collectWorkflows_snd (tag : String) (es : List RawEntry) :
    (collectWorkflows tag es).2 = es.filterMap fun e =>
      match parseEntry e with
      | .ok _ => none
      | .error v => some (LogMsg.invalidWorkflow v) := by
  induction es with
  | nil => rfl
  | cons e rest ih =>
    simp only [collectWorkflows, List.filterMap_cons]
    cases hp : parseEntry e with
    | ok d => by_cases hcd : compatible tag d <;> simp [hp, hcd, ih]
    | error v => simp [hp, ih]

theorem collectWorkflows_snd_length (tag : String) (es : List RawEntry) :
    (collectWorkflows tag es).2.length = es.countP fun e => !(parseEntry e).isOk := by
  induction es with
  | nil => rfl
  | cons e rest ih =>
    simp only [collectWorkflows, List.countP_cons]
    cases hp : parseEntry e with
    | ok d =>
      by_cases hcd : compatible tag d <;> simp [hp, hcd, ih, Except.isOk, Except.toBool]
    | error v => simp [hp, ih, Except.isOk, Except.toBool]

theorem collectWorkflows_fst_length (tag : String) (es : List RawEntry)
    (h : ∀ e ∈ es, ∀ d, parseEntry e = .ok d → compatible tag d = true) :
    (collectWorkflows tag es).1.length = es.countP fun e => (parseEntry e).isOk := by
  induction es with
  | nil => rfl
  | cons e rest ih =>
    have hrest := ih fun e' he' => h e' (List.mem_cons_of_mem e he')
    simp only [collectWorkflows, List.countP_cons]
    cases hp : parseEntry e with
    | ok d =>
      have hcd : compatible tag d = true := h e (List.mem_cons_self e rest) d hp
      simp [hp, hcd, hrest, Except.isOk, Except.toBool]
    | error v => simp [hp, hrest, Except.isOk, Except.toBool]

theorem toOption_eq_some_iff {e : RawEntry} {d : WorkflowDefinition} :
    (parseEntry e).toOption = some d ↔ parseEntry e = .ok d := by
  cases hp : parseEntry e <;> simp [Except.toOption]

end Multipass



namespace Multipass

theorem fetch_reduces {s : CatalogState} {idq : String} {e : RawEntry}
    {d : WorkflowDefinition} (r : VMRequest)
    (hfind : findEntry s idq = some e) (hparse : parseEntry e = .ok d)
    (hcompat : compatible s.tag d = true) :
    fetch_workflow_for s idq r =
      (match apply_workflow d r with
       | (.ok q, rr) => (.ok q, rr)
       | (.error v, rr) => (.error (.minimumViolation v), rr)) := by
  unfold fetch_workflow_for
  simp only [hfind, hparse]
  rw [if_pos hcompat]

/-- Claim C1: for each resource (cores, memory, disk), applying a workflow to
a VM provisioning request via fetch_workflow_for sets the request's field to
the workflow's minimum when the field holds the zero/unset sentinel (leaving
it unset when the workflow defines no minimum for that resource), and leaves
the field unchanged whenever its value is non-sentinel — in particular when
it is already at least the workflow's minimum or the workflow defines no
minimum; the returned image query defaults to release "default" when the
workflow defines no image. -/
theorem fetch_workflow_applies_minimums (s : CatalogState) (idq : String)
    (e : RawEntry) (d : WorkflowDefinition) (r : VMRequest) (q : ImageQuery) (r2 : VMRequest)
    (hfind : findEntry s idq = some e) (hparse : parseEntry e = .ok d)
    (hcompat : compatible s.tag d = true)
    (hrun : fetch_workflow_for s idq r = (.ok q, r2)) :
    (r.num_cores = 0 → r2.num_cores = d.min_cores.getD 0) ∧
    (r.num_cores ≠ 0 → r2.num_cores = r.num_cores) ∧
    (r.mem_size = 0 → r2.mem_size = (d.min_mem.map SizeSpec.bytes).getD 0) ∧
    (r.mem_size ≠ 0 → r2.mem_size = r.mem_size) ∧
    (r.disk_space = 0 → r2.disk_space = (d.min_disk.map SizeSpec.bytes).getD 0) ∧
    (r.disk_space ≠ 0 → r2.disk_space = r.disk_space) ∧
    (d.image = none → q.release = "default") := by
  rw [fetch_reduces r hfind hparse hcompat] at hrun
  have hap : apply_workflow d r = (.ok q, r2) := by
    cases hap : apply_workflow d r with
    | mk res rr =>
      cases res with
      | ok q0 =>
        simp only [hap] at hrun
        simp at hrun
        rw [hrun.1, hrun.2]
      | error v0 =>
        simp only [hap] at hrun
        simp at hrun
  obtain ⟨a1, a2, a3, a4, a5, a6, a7⟩ := apply_workflow_ok_fields hap
  refine ⟨a1, a2, a3, a4, a5, a6, ?_⟩
  intro himg
  rw [a7]
  simp [imageFor, himg]

theorem fetch_workflow_applies_minimums_witness :
    ((⟨2, 2147483648, 26843545600, some "runcmd echo Have fun"⟩ : VMRequest).num_cores =
      testWorkflow1Def.min_cores.getD 0) ∧
    ((⟨"default", ""⟩ : ImageQuery).release = "default") := by
  have h := fetch_workflow_applies_minimums sW1 "test-workflow1" testWorkflow1Entry
    testWorkflow1Def ⟨0, 0, 0, none⟩ ⟨"default", ""⟩
    ⟨2, 2147483648, 26843545600, some "runcmd echo Have fun"⟩
    (by decide) (by decide) (by decide) (by decide)
  exact ⟨h.1 rfl, h.2.2.2.2.2.2 rfl⟩

end Multipass

namespace Multipass

/-- Claim C6: for each resource (cores, memory, disk), fetch_workflow_for
fails with a workflow-minimum violation exactly when the request's current
value for that resource is non-sentinel and strictly less than the workflow's
defined minimum, and the failure names the resource ("Number of CPUs" /
"Memory size" / "Disk space") and the required minimum formatted as given in
the workflow (the cores minimum as a decimal number, the memory and disk
minimums by their given size strings such as "2G"); when several resources
violate their minimums the failure names the first in cores, memory, disk
order. -/
theorem fetch_workflow_minimum_exact (s : CatalogState) (idq : String)
    (e : RawEntry) (d : WorkflowDefinition) (r : VMRequest)
    (hfind : findEntry s idq = some e) (hparse : parseEntry e = .ok d)
    (hcompat : compatible s.tag d = true) :
    ((∃ v, (fetch_workflow_for s idq r).1 = .error (.minimumViolation v)) ↔
      (coresViolated d r || memViolated d r || diskViolated d r) = true) ∧
    (∀ m, d.min_cores = some m → coresViolated d r = true →
      (fetch_workflow_for s idq r).1 =
        .error (.minimumViolation ⟨"Number of CPUs", toString m⟩)) ∧
    (∀ m, d.min_mem = some m → coresViolated d r = false → memViolated d r = true →
      (fetch_workflow_for s idq r).1 =
        .error (.minimumViolation ⟨"Memory size", m.str⟩)) ∧
    (∀ m, d.min_disk = some m → coresViolated d r = false → memViolated d r = false →
      diskViolated d r = true →
      (fetch_workflow_for s idq r).1 =
        .error (.minimumViolation ⟨"Disk space", m.str⟩)) := by
  have hred := fetch_reduces r hfind hparse hcompat
  have hcores : ∀ m, d.min_cores = some m → coresViolated d r = true →
      (fetch_workflow_for s idq r).1 =
        .error (.minimumViolation ⟨"Number of CPUs", toString m⟩) := by
    intro m hm hv
    have hap := (apply_workflow_min_cases d r).1 hv m hm
    rw [hred]
    simp only [hap]
  have hmem : ∀ m, d.min_mem = some m → coresViolated d r = false → memViolated d r = true →
      (fetch_workflow_for s idq r).1 =
        .error (.minimumViolation ⟨"Memory size", m.str⟩) := by
    intro m hm hcv hv
    obtain ⟨r1, _, hap⟩ := (apply_workflow_min_cases d r).2.1 hcv hv m hm
    rw [hred]
    simp only [hap]
  have hdisk : ∀ m, d.min_disk = some m → coresViolated d r = false →
      memViolated d r = false → diskViolated d r = true →
      (fetch_workflow_for s idq r).1 =
        .error (.minimumViolation ⟨"Disk space", m.str⟩) := by
    intro m hm hcv hmv hv
    obtain ⟨r1, r2, _, _, hap⟩ := (apply_workflow_min_cases d r).2.2.1 hcv hmv hv m hm
    rw [hred]
    simp only [hap]
  refine ⟨?_, hcores, hmem, hdisk⟩
  constructor
  · rintro ⟨v, hv⟩
    by_contra hb
    simp only [Bool.or_eq_true, not_or, Bool.not_eq_true] at hb
    obtain ⟨⟨h1, h2⟩, h3⟩ := hb
    obtain ⟨q, r4, hap⟩ := (apply_workflow_min_cases d r).2.2.2 h1 h2 h3
    rw [hred] at hv
    simp only [hap] at hv
    exact absurd hv (by simp)
  · intro hdisj
    by_cases hc1 : coresViolated d r = true
    · obtain ⟨m, hm, _, _⟩ := coresViolated_iff.mp hc1
      exact ⟨_, hcores m hm hc1⟩
    · have hc1f : coresViolated d r = false := by simpa using hc1
      by_cases hm1 : memViolated d r = true
      · obtain ⟨m, hm, _, _⟩ := memViolated_iff.mp hm1
        exact ⟨_, hmem m hm hc1f hm1⟩
      · have hm1f : memViolated d r = false := by simpa using hm1
        by_cases hd1 : diskViolated d r = true
        · obtain ⟨m, hm, _, _⟩ := diskViolated_iff.mp hd1
          exact ⟨_, hdisk m hm hc1f hm1f hd1⟩
        · have hd1f : diskViolated d r = false := by simpa using hd1
          rw [hc1f, hm1f, hd1f] at hdisj
          simp at hdisj

theorem fetch_workflow_minimum_exact_witness :
    (fetch_workflow_for sW1 "test-workflow1" ⟨1, 0, 0, none⟩).1 =
      .error (.minimumViolation ⟨"Number of CPUs", toString 2⟩) :=
  (fetch_workflow_minimum_exact sW1 "test-workflow1" testWorkflow1Entry testWorkflow1Def
    ⟨1, 0, 0, none⟩ (by decide) (by decide) (by decide)).2.1 2 (by decide) (by decide)

end Multipass

namespace Multipass

/-- Claim C7 (amended): whenever fetch_workflow_for fails with a
workflow-minimum violation, every resource field the caller had set to a
non-sentinel value and the cloud-init content are unchanged; a field that held
the zero sentinel and was examined before the failing resource may however
already have been raised to the workflow's minimum, because the applier
mutates the request in place, step by step. -/
theorem fetch_workflow_failure_fields (s : CatalogState) (idq : String)
    (r : VMRequest) (v : MinViolation) (r2 : VMRequest)
    (h : fetch_workflow_for s idq r = (.error (.minimumViolation v), r2)) :
    r2.cloud_init = r.cloud_init ∧
    (r.num_cores ≠ 0 → r2.num_cores = r.num_cores) ∧
    (r.mem_size ≠ 0 → r2.mem_size = r.mem_size) ∧
    (r.disk_space = 0 → r2.disk_space = 0) ∧
    (r.disk_space ≠ 0 → r2.disk_space = r.disk_space) ∧
    (r.num_cores = 0 → r2.num_cores = 0 ∨
      (∃ e d, findEntry s idq = some e ∧ parseEntry e = .ok d ∧
        d.min_cores = some r2.num_cores)) ∧
    (r.mem_size = 0 → r2.mem_size = 0 ∨
      (∃ e d m, findEntry s idq = some e ∧ parseEntry e = .ok d ∧
        d.min_mem = some m ∧ r2.mem_size = m.bytes)) := by
  unfold fetch_workflow_for at h
  cases hf : findEntry s idq with
  | none => simp only [hf] at h; simp at h
  | some e =>
    simp only [hf] at h
    cases hp : parseEntry e with
    | error v0 => simp only [hp] at h; simp at h
    | ok d =>
      simp only [hp] at h
      by_cases hcd : compatible s.tag d = true
      · rw [if_pos hcd] at h
        cases hap : apply_workflow d r with
        | mk res rr =>
          simp only [hap] at h
          cases res with
          | ok q0 => simp at h
          | error v0 =>
            simp at h
            obtain ⟨hv0, hrr⟩ := h
            subst hrr
            rcases apply_workflow_error_elim hap with
              ⟨hc, hr⟩ | ⟨r1, hc, hm, hr⟩ | ⟨r1, r1', hc, hm, hd, hr⟩
            · subst hr
              exact ⟨rfl, fun _ => rfl, fun _ => rfl, fun hz => hz, fun _ => rfl,
                fun hz => Or.inl hz, fun hz => Or.inl hz⟩
            · subst hr
              obtain ⟨hc1, hc2, hc3, hc4, hc5⟩ := mergeCores_ok_fields hc
              refine ⟨hc3, hc5, fun _ => hc1, fun hz => by rw [hc2]; exact hz,
                fun _ => hc2, ?_, fun hz => Or.inl (by rw [hc1]; exact hz)⟩
              intro hz
              have := hc4 hz
              cases hmc : d.min_cores with
              | none => rw [hmc] at this; exact Or.inl (by simpa using this)
              | some m =>
                rw [hmc] at this
                simp at this
                exact Or.inr ⟨e, d, rfl, hp, by rw [hmc, this]⟩
            · subst hr
              obtain ⟨hc1, hc2, hc3, hc4, hc5⟩ := mergeCores_ok_fields hc
              obtain ⟨hm1, hm2, hm3, hm4, hm5⟩ := mergeMem_ok_fields hm
              refine ⟨by rw [hm3, hc3], fun hz => by rw [hm1]; exact hc5 hz,
                fun hz => by rw [hm5 (by rw [hc1]; exact hz), hc1],
                fun hz => by rw [hm2, hc2]; exact hz,
                fun _ => by rw [hm2, hc2], ?_, ?_⟩
              · intro hz
                have := hc4 hz
                cases hmc : d.min_cores with
                | none =>
                  rw [hmc] at this
                  exact Or.inl (by rw [hm1]; simpa using this)
                | some m =>
                  rw [hmc] at this
                  simp at this
                  exact Or.inr ⟨e, d, rfl, hp, by rw [hmc, hm1, this]⟩
              · intro hz
                have hz1 : r1.mem_size = 0 := by rw [hc1]; exact hz
                have := hm4 hz1
                cases hmm : d.min_mem with
                | none => rw [hmm] at this; exact Or.inl (by simpa using this)
                | some m =>
                  rw [hmm] at this
                  simp at this
                  exact Or.inr ⟨e, d, m, rfl, hp, hmm, this⟩
      · rw [if_neg hcd] at h
        simp at h

/-- The claim C7 fails as stated: with test-workflow1 (minimum cores 2,
minimum memory 2G), a request of sentinel cores and 1G of memory fails on the
memory minimum, but by then the cores field of the caller's request has
already been raised from 0 to 2. -/
theorem fetch_workflow_mutation_cex :
    fetch_workflow_for sW1 "test-workflow1" ⟨0, 1073741824, 0, none⟩ =
      (.error (.minimumViolation ⟨"Memory size", "2G"⟩), ⟨2, 1073741824, 0, none⟩) ∧
    (⟨2, 1073741824, 0, none⟩ : VMRequest) ≠ ⟨0, 1073741824, 0, none⟩ :=
  ⟨by decide, by decide⟩

theorem fetch_workflow_failure_fields_witness :
    ((⟨2, 1073741824, 0, none⟩ : VMRequest).cloud_init = (none : Option String)) ∧
    ((⟨2, 1073741824, 0, none⟩ : VMRequest).mem_size = 1073741824) := by
  have h := fetch_workflow_failure_fields sW1 "test-workflow1" ⟨0, 1073741824, 0, none⟩
    ⟨"Memory size", "2G"⟩ ⟨2, 1073741824, 0, none⟩ (by decide)
  exact ⟨h.1, h.2.2.1 (by decide)⟩

end Multipass

namespace Multipass

/-- Claim C2: during a refresh — including the mandatory one at construction —
a fetch failure or a corrupt archive is recoverable: it is logged and does not
propagate (construction still succeeds and the state is left untouched),
whereas any other unexpected failure propagates unmodified both out of
construction and out of a catalog operation that triggered the refresh. -/
theorem refresh_failure_policy (ttl : Nat) (tag m : String) (now : Nat) (s : CatalogState) :
    (construct ttl tag now (.fetchFailure m) =
      .ok ({ ttl := ttl, tag := tag, last_refresh := none, entries := [] },
           [.fetchError m])) ∧
    (construct ttl tag now (.archiveCorrupt m) =
      .ok ({ ttl := ttl, tag := tag, last_refresh := none, entries := [] },
           [.archiveError m])) ∧
    (construct ttl tag now (.other m) = .error m) ∧
    (needsRefresh s now = true →
      ensure_fresh s now (.fetchFailure m) = .ok (s, true, [.fetchError m]) ∧
      ensure_fresh s now (.archiveCorrupt m) = .ok (s, true, [.archiveError m]) ∧
      all_workflows_op s now (.other m) = .error m) := by
  refine ⟨rfl, rfl, rfl, fun hs => ⟨?_, ?_, ?_⟩⟩
  · simp [ensure_fresh, hs]
  · simp [ensure_fresh, hs]
  · simp [all_workflows_op, ensure_fresh, hs]

theorem refresh_failure_policy_witness :
    ensure_fresh sW1 5 (.fetchFailure "boom") = .ok (sW1, true, [.fetchError "boom"]) ∧
    all_workflows_op sW1 5 (.other "defect") = .error "defect" :=
  ⟨((refresh_failure_policy 1 "amd64" "boom" 5 sW1).2.2.2 (by decide)).1,
   ((refresh_failure_policy 1 "amd64" "defect" 5 sW1).2.2.2 (by decide)).2.2⟩

/-- Claim C4: with TTL t, a catalog operation performs no fetch attempt while
the time since the last successful refresh is strictly below t (so a second
call within one TTL window of a successful refresh performs no further fetch —
two calls, exactly one fetch), and a TTL of zero means always stale: every
operation attempts a refresh. -/
theorem ttl_freshness (s : CatalogState) (now now2 t : Nat)
    (f f2 : FetchOutcome) (es : List RawEntry) :
    (s.last_refresh = some t → now - t < s.ttl →
      ensure_fresh s now f = .ok (s, false, []) ∧
      all_workflows_op s now f =
        .ok (s, false, (collectWorkflows s.tag s.entries).1,
             (collectWorkflows s.tag s.entries).2)) ∧
    (needsRefresh s now = true →
      ensure_fresh s now (.fetched es) =
        .ok ({ s with entries := es, last_refresh := some now }, true, []) ∧
      (now2 - now < s.ttl →
        ensure_fresh { s with entries := es, last_refresh := some now } now2 f2 =
          .ok ({ s with entries := es, last_refresh := some now }, false, []))) ∧
    (s.ttl = 0 → needsRefresh s now = true) := by
  refine ⟨fun hl hlt => ?_, fun hs => ⟨?_, fun hlt => ?_⟩, fun hz => ?_⟩
  · have hn : needsRefresh s now = false := by simp [needsRefresh, hl, hlt]
    constructor
    · simp [ensure_fresh, hn]
    · simp [all_workflows_op, ensure_fresh, hn]
  · simp [ensure_fresh, hs]
  · have hn : needsRefresh { s with entries := es, last_refresh := some now } now2 = false := by
      simp [needsRefresh, hlt]
    simp [ensure_fresh, hn]
  · cases hl : s.last_refresh with
    | none => simp [needsRefresh, hl]
    | some t0 => simp [needsRefresh, hl, hz]

theorem ttl_freshness_witness :
    (ensure_fresh sW1 0 (.fetchFailure "ignored") = .ok (sW1, false, [])) ∧
    (ensure_fresh { sW1 with entries := [], last_refresh := some 5 } 5
        (.other "ignored") =
      .ok ({ sW1 with entries := [], last_refresh := some 5 }, false, [])) ∧
    (needsRefresh { sW1 with ttl := 0 } 0 = true) :=
  ⟨((ttl_freshness sW1 0 0 0 (.fetchFailure "ignored") (.fetched []) []).1
      (by decide) (by decide)).1,
   ((ttl_freshness sW1 5 5 0 (.fetched []) (.other "ignored") []).2.1
      (by decide)).2 (by decide),
   (ttl_freshness { sW1 with ttl := 0 } 0 0 0 (.fetched []) (.fetched []) []).2.2 (by decide)⟩

end Multipass

namespace Multipass

/-- Claim C3: for an archive batch with malformed entries alongside
well-formed ones, the bulk listing returns summaries for exactly the
well-formed (and compatible) entries and logs exactly one field-named error
per malformed entry, while a targeted info_for or fetch_workflow_for on a
malformed entry's id propagates that entry's specific schema violation
instead of logging and skipping it. -/
theorem bulk_fail_soft_targeted_fail_fast (tag : String) (es : List RawEntry)
    (s : CatalogState) (idq : String) (e : RawEntry) (v : SchemaViolation) (r : VMRequest) :
    ((collectWorkflows tag es).1 = es.filterMap fun e' =>
      match parseEntry e' with
      | .ok d => if compatible tag d then some (summarize d) else none
      | .error _ => none) ∧
    ((collectWorkflows tag es).2 = es.filterMap fun e' =>
      match parseEntry e' with
      | .ok _ => none
      | .error v' => some (LogMsg.invalidWorkflow v')) ∧
    ((collectWorkflows tag es).2.length = es.countP fun e' => !(parseEntry e').isOk) ∧
    ((es.all fun e' =>
        match parseEntry e' with
        | .ok d => compatible tag d
        | .error _ => true) = true →
      (collectWorkflows tag es).1.length = es.countP fun e' => (parseEntry e').isOk) ∧
    (findEntry s idq = some e → parseEntry e = .error v →
      info_for s idq = .error (.invalidWorkflow v) ∧
      (fetch_workflow_for s idq r).1 = .error (.invalidWorkflow v)) := by
  refine ⟨collectWorkflows_fst tag es, collectWorkflows_snd tag es,
    collectWorkflows_snd_length tag es, fun hall => ?_, fun hf hp => ⟨?_, ?_⟩⟩
  · refine collectWorkflows_fst_length tag es ?_
    intro e' he' d hp
    have hx := List.all_eq_true.mp hall e' he'
    rw [hp] at hx
    exact hx
  · simp [info_for, hf, hp]
  · simp [fetch_workflow_for, hf, hp]

theorem bulk_fail_soft_targeted_fail_fast_witness :
    ((collectWorkflows "amd64" [missingDescEntry, testWorkflow1Entry]).1.length =
      List.countP (fun e' => (parseEntry e').isOk) [missingDescEntry, testWorkflow1Entry]) ∧
    (info_for
        { ttl := 1, tag := "amd64", last_refresh := some 0,
          entries := [missingDescEntry, testWorkflow1Entry] }
        "missing-description-workflow" =
      .error (.invalidWorkflow ⟨"description", .required⟩)) := by
  have h := bulk_fail_soft_targeted_fail_fast "amd64" [missingDescEntry, testWorkflow1Entry]
    { ttl := 1, tag := "amd64", last_refresh := some 0,
      entries := [missingDescEntry, testWorkflow1Entry] }
    "missing-description-workflow" missingDescEntry ⟨"description", .required⟩ ⟨0, 0, 0, none⟩
  exact ⟨h.2.2.2.1 (by decide), (h.2.2.2.2 (by decide) (by decide)).1⟩

/-- Claim C5 (amended): at every reachable catalog state, the
id-to-definition mapping contains only definitions that passed validation and
whose runs-on set is empty or contains the catalog's compatibility tag, and
every entry failing validation is excluded and logged on the bulk listing;
definitions excluded only for architecture incompatibility, however, are
dropped from the bulk listing without a log entry. -/
theorem mapping_invariant (s : CatalogState) (_reach : Reachable s) :
    (∀ d ∈ s.mapping,
      (∃ e ∈ s.entries, parseEntry e = .ok d) ∧ compatible s.tag d = true) ∧
    (∀ e ∈ s.entries, ∀ v, parseEntry e = .error v →
      LogMsg.invalidWorkflow v ∈ (collectWorkflows s.tag s.entries).2) := by
  constructor
  · intro d hd
    unfold CatalogState.mapping at hd
    rw [List.mem_filter] at hd
    obtain ⟨hmem, hcomp⟩ := hd
    rw [List.mem_filterMap] at hmem
    obtain ⟨e, he, hpe⟩ := hmem
    exact ⟨⟨e, he, toOption_eq_some_iff.mp hpe⟩, hcomp⟩
  · intro e he v hv
    rw [collectWorkflows_snd, List.mem_filterMap]
    exact ⟨e, he, by simp [hv]⟩

theorem mapping_invariant_witness :
    (∃ e ∈ sComp.entries, parseEntry e = .ok archOnlyDef) ∧
    compatible sComp.tag archOnlyDef = true :=
  (mapping_invariant sComp
    (Reachable.init 1 "arch" 0 (.fetched [archOnlyEntry]) sComp [] (by decide))).1
    archOnlyDef (by decide)

/-- The claim C5 fails as stated in its logging half: a reachable catalog
whose only entry is valid but architecture-incompatible excludes the
definition from the mapping and from the bulk listing, yet the bulk pass
emits no log at all — the entry is dropped without a diagnostic. -/
theorem compat_drop_unlogged_cex :
    construct 1 "amd64" 0 (.fetched [archOnlyEntry]) = .ok (sIncomp, []) ∧
    parseEntry archOnlyEntry = .ok archOnlyDef ∧
    compatible sIncomp.tag archOnlyDef = false ∧
    sIncomp.mapping = [] ∧
    collectWorkflows sIncomp.tag sIncomp.entries = ([], []) := by
  refine ⟨by decide, by decide, by decide, by decide, by decide⟩

/-- Claim C8 (amended): workflow_timeout returns the definition's timeout in
seconds when the workflow is known and defines one, and 0 when the workflow is
unknown or defines no timeout; but when the workflow is known and its timeout
value is present yet malformed it fails with the timeout schema violation
instead of returning. -/
theorem workflow_timeout_spec (s : CatalogState) (idq : String) :
    (findEntry s idq = none → workflow_timeout s idq = .ok 0) ∧
    (∀ e, findEntry s idq = some e →
      (e.timeout = .absent → workflow_timeout s idq = .ok 0) ∧
      (∀ t, e.timeout = .val t → workflow_timeout s idq = .ok t) ∧
      (e.timeout = .bad →
        workflow_timeout s idq = .error ⟨"timeout", .invalidValue⟩)) := by
  constructor
  · intro hf
    simp [workflow_timeout, hf]
  · intro e hf
    refine ⟨fun ht => ?_, fun t ht => ?_, fun ht => ?_⟩ <;>
      simp [workflow_timeout, hf, ht]

theorem workflow_timeout_spec_witness :
    workflow_timeout sW1 "test-workflow1" = .ok 600 ∧
    workflow_timeout sW1 "unknown-workflow" = .ok 0 :=
  ⟨((workflow_timeout_spec sW1 "test-workflow1").2 testWorkflow1Entry
      (by decide)).2.1 600 (by decide),
   (workflow_timeout_spec sW1 "unknown-workflow").1 (by decide)⟩

/-- The claim C8 fails as stated: on a known workflow whose timeout value is
present but malformed, workflow_timeout raises the timeout schema violation —
it does not return 0 and it does throw (the behaviour the repository's own
test invalidTimeoutThrows requires). -/
theorem workflow_timeout_throws_cex :
    workflow_timeout sTimeout "invalid-timeout-workflow" =
      .error ⟨"timeout", .invalidValue⟩ ∧
    workflow_timeout sTimeout "invalid-timeout-workflow" ≠ .ok 0 ∧
    findEntry sTimeout "invalid-timeout-workflow" = some invalidTimeoutEntry := by
  refine ⟨by decide, by decide, by decide⟩

end Multipass

/-- Claim C9: for every invocation of the mount command in which neither the
uid-map option nor the gid-map option is set, parse_args adds exactly one
default uid mapping (the host caller's uid mapped to the default instance id)
and exactly one default gid mapping (the host caller's gid mapped to the
default instance id) to the mount request. -/
theorem mount_default_id_mappings (host_uid host_gid : Nat) :
    MountCmd.parse_mount_maps none none host_uid host_gid =
      .ok ([{ host_id := host_uid, instance_id := MountCmd.default_id }],
           [{ host_id := host_gid, instance_id := MountCmd.default_id }]) := rfl

/-- Claim C10 (amended): the stop command accepts the --time value exactly
when, after removing at most one leading plus character, the remaining string
consists only of digits (printing the digit-form message and failing with a
command-line error otherwise); on acceptance the request's time_minutes is
set to that integer when the string is non-empty and the value fits a 32-bit
signed int, and to 0 otherwise (QString::toInt reports overflow and the empty
string as failure by returning 0). -/
theorem stop_time_parse_spec (time : String) :
    (StopCmd.has_only_digits (StopCmd.stripPlus time) = false →
      StopCmd.parse_time time = .error "Time must be in digit form") ∧
    (StopCmd.has_only_digits (StopCmd.stripPlus time) = true →
      (StopCmd.stripPlus time).toList ≠ [] →
      StopCmd.digitsVal (StopCmd.stripPlus time) ≤ StopCmd.intMax →
      StopCmd.parse_time time = .ok (StopCmd.digitsVal (StopCmd.stripPlus time))) ∧
    (StopCmd.has_only_digits (StopCmd.stripPlus time) = true →
      ((StopCmd.stripPlus time).toList = [] ∨
        StopCmd.intMax < StopCmd.digitsVal (StopCmd.stripPlus time)) →
      StopCmd.parse_time time = .ok 0) := by
  refine ⟨fun h0 => ?_, fun h0 h1 h2 => ?_, fun h0 h1 => ?_⟩
  · simp only [StopCmd.parse_time]
    rw [if_neg (by simp [h0])]
  · have h1a : (StopCmd.stripPlus time).data ≠ [] := h1
    simp only [StopCmd.parse_time]
    rw [if_pos h0]
    simp only [StopCmd.qstringToInt]
    rw [if_pos (by simp [h0, h1a, h2])]
  · rcases h1 with h1 | h1
    · have h1a : (StopCmd.stripPlus time).data = [] := h1
      simp only [StopCmd.parse_time]
      rw [if_pos h0]
      simp only [StopCmd.qstringToInt]
      rw [if_neg (by simp [h1a])]
    · simp only [StopCmd.parse_time]
      rw [if_pos h0]
      simp only [StopCmd.qstringToInt]
      rw [if_neg (by simp [Nat.not_le.mpr h1])]

theorem stop_time_parse_spec_witness :
    StopCmd.parse_time "+10" = .ok (StopCmd.digitsVal (StopCmd.stripPlus "+10")) ∧
    StopCmd.parse_time "1x" = .error "Time must be in digit form" ∧
    StopCmd.parse_time "+" = .ok 0 :=
  ⟨(stop_time_parse_spec "+10").2.1 (by decide) (by decide) (by decide),
   (stop_time_parse_spec "1x").1 (by decide),
   (stop_time_parse_spec "+").2.2 (by decide) (Or.inl (by decide))⟩

/-- The claim C10 fails as stated: the all-digit time value 2147483648
overflows a 32-bit signed int, so QString::toInt reports failure and the
request's time_minutes is set to 0, not to the integer the digits denote. -/
theorem stop_time_overflow_cex :
    StopCmd.parse_time "2147483648" = .ok 0 ∧
    StopCmd.has_only_digits "2147483648" = true ∧
    StopCmd.digitsVal "2147483648" = 2147483648 ∧
    ((0 : Int) ≠ 2147483648) := by
  refine ⟨by decide, by decide, by decide, by decide⟩
